import Mathlib

/-!
Shallow embedding of `DataverseClient.py` (fabipfr/DataversePython).

The client owns an authenticated HTTP session and a base environment URI and
exposes `get_rows` (paginated GET over the Dataverse Web API) and
`insert_rows` (one POST per row).  HTTP itself is modelled by a deterministic
server function from the request URL to a parsed response; the parsed JSON
body is modelled by the two envelope fields the code reads (`value`,
`@odata.nextLink`) plus the raw content used in error messages.  The
pagination `while` loop of the Python source has no bound, so it is embedded
with explicit fuel returning `Option`: `none` means the loop is still running
after `fuel` next-link fetches.
-/

namespace DataverseClient

/-- Row of a table: one JSON object, an ordered mapping from column name to
scalar value (scalars modelled as strings; their shape is never inspected by
the client). -/
abbrev Row := List (String × String)

/-- Header map of a session or request, ordered as Python dicts are. -/
abbrev Headers := List (String × String)

/-- Python `dict.update` with a single key: replace the value if the key is
present, otherwise append the binding at the end. -/
def updateHeader (hs : Headers) (k v : String) : Headers :=
  if hs.any (fun p => p.1 = k) then hs.map (fun p => if p.1 = k then (k, v) else p)
  else hs ++ [(k, v)]

/-- Parsed HTTP response as the Python code consumes it: `status_code`,
the `value` array of the JSON body (`none` when the key is absent),
the `@odata.nextLink` field (`none` when absent or null, matching
`data.get` returning `None` in both cases), and the raw decoded content used
in error messages. -/
structure HttpResponse where
  status_code : Nat
  value : Option (List Row)
  nextLink : Option String
  content : String
deriving DecidableEq

/-- One GET request as issued on the wire: its URL and the effective headers
sent (the session headers merged with any per-call headers). -/
structure HttpRequest where
  url : String
  headers : Headers
deriving DecidableEq

/-- Deterministic server: a response for every URL. -/
abbrev Server := String → HttpResponse

/-- Requests session: the mutable header dict owned by the client.  The
defaults a fresh `requests.Session()` ships with live in the external
`requests` library, outside this repository; a fresh session is therefore
modelled with an empty header map, so `headers` records exactly the updates
the source performs on it. -/
structure Session where
  headers : Headers
deriving DecidableEq

/-- Result of a read: the accumulated rows on success, or the payload of the
raised exception (status code and decoded body) on a non-200 response. -/
inductive ReadResult where
  | ok (rows : List Row)
  | error (status_code : Nat) (content : String)
deriving DecidableEq

/-- Observable outcome of `get_rows`: the GET requests issued in order, the
returned rows or raised error, and the session as it stands afterwards. -/
structure GetOutcome where
  trace : List HttpRequest
  result : ReadResult
  sessionAfter : Session
deriving DecidableEq

/-- Mirror of the copied header dict of `get_rows`: the session headers,
with the `Prefer` annotations header added to the copy when
`include_odata_annotations` is set. -/
def request_headers (session : Session) (include_odata_annotations : Bool) : Headers :=
  if include_odata_annotations then
    updateHeader session.headers "Prefer" "odata.include-annotations=*"
  else session.headers

/-- Mirror of the request-URI construction of `get_rows`: base URI plus fixed
API segment plus entity, then `?` and `&`-joined parameters.  Python
truthiness governs each `if`: `if top:` is false for `None` and for `0`,
`if columns:` for the empty list, `if filter:` for `None` and the empty
string. -/
def buildRequestURI (environmentURI entity : String) (top : Option Int)
    (columns : List String) (filter : Option String) : String :=
  let requestURI := environmentURI ++ "api/data/v9.2/" ++ entity
  let queryParams : List String :=
    (match top with
     | some t => if t ≠ 0 then ["$top=" ++ toString t] else []
     | none => []) ++
    (if columns ≠ [] then ["$select=" ++ String.intercalate "," columns] else []) ++
    (match filter with
     | some f => if f ≠ "" then ["$filter=" ++ f] else []
     | none => [])
  if queryParams ≠ [] then requestURI ++ "?" ++ String.intercalate "&" queryParams
  else requestURI

/-- Second construction of the request URI, following the words of the
(amended) specification sentence rather than the control flow of the source:
each of the three parameters independently contributes an optional query
component — `top` when present and non-zero, the column selection when the
column list is non-empty, `filter` when present and non-empty — and the URI
is the base followed, when any component exists, by `?` and the `&`-joined
components in the fixed order top, select, filter. -/
def requestURI_spec (environmentURI entity : String) (top : Option Int)
    (columns : List String) (filter : Option String) : String :=
  let base := environmentURI ++ "api/data/v9.2/" ++ entity
  let topPart : Option String :=
    match top with
    | some t => if t = 0 then none else some ("$top=" ++ toString t)
    | none => none
  let selectPart : Option String :=
    if columns.isEmpty then none else some ("$select=" ++ String.intercalate "," columns)
  let filterPart : Option String :=
    match filter with
    | some f => if f = "" then none else some ("$filter=" ++ f)
    | none => none
  let params := topPart.toList ++ selectPart.toList ++ filterPart.toList
  if params.isEmpty then base else base ++ "?" ++ String.intercalate "&" params

/-- Mirror of the `while` loop of `get_rows` over the pending next link.
Each iteration issues a session GET against the next-link URL with no
per-call headers — so the wire request carries exactly the session headers —
raises on a non-200 status, and otherwise appends the rows of the page.
`fuel` bounds the number of next-link fetches; `none` means the loop is
still running after `fuel` fetches. -/
def get_rows_loop (server : Server) (session : Session) :
    Nat → HttpResponse → List Row → List HttpRequest → Option GetOutcome
  | fuel, data, df, trace =>
    match data.nextLink with
    | none => some ⟨trace, ReadResult.ok df, session⟩
    | some next_url =>
      match fuel with
      | 0 => none
      | fuel' + 1 =>
        let r := server next_url
        if r.status_code ≠ 200 then
          some ⟨trace ++ [⟨next_url, session.headers⟩],
                ReadResult.error r.status_code r.content, session⟩
        else
          get_rows_loop server session fuel' r (df ++ r.value.getD [])
            (trace ++ [⟨next_url, session.headers⟩])

/-- Mirror of `DataverseClient.get_rows`.  The first GET is issued with the
copied headers (plus `Prefer` when annotations are requested); since that
copy extends the session headers, the effective wire headers of the first
request are exactly the copy.  A non-200 first response raises with its
status code and body; otherwise the rows under `value` (absent means `[]`)
seed the accumulator and the next-link loop runs. -/
def get_rows (session : Session) (environmentURI entity : String) (top : Option Int)
    (columns : List String) (filter : Option String)
    (include_odata_annotations : Bool) (server : Server) (fuel : Nat) :
    Option GetOutcome :=
  let get_headers := request_headers session include_odata_annotations
  let requestURI := buildRequestURI environmentURI entity top columns filter
  let r := server requestURI
  if r.status_code ≠ 200 then
    some ⟨[⟨requestURI, get_headers⟩], ReadResult.error r.status_code r.content, session⟩
  else
    get_rows_loop server session fuel r (r.value.getD []) [⟨requestURI, get_headers⟩]

/-- One POST request as issued by `insert_rows`: URL, effective headers, and
the row serialized as the JSON payload. -/
structure PostRequest where
  url : String
  headers : Headers
  payload : Row
deriving DecidableEq

/-- Log line emitted per inserted row: an error entry with status and body on
a non-204 response, an info entry otherwise. -/
inductive InsertLog where
  | failure (idx : Nat) (status_code : Nat) (content : String)
  | success (idx : Nat)
deriving DecidableEq

/-- Decidable test distinguishing failure log lines. -/
def InsertLog.isFailure : InsertLog → Bool
  | failure _ _ _ => true
  | success _ => false

/-- Observable outcome of `insert_rows`: the POSTs issued in order and the
log lines written, one per row.  The Python method returns `None`, so there
is no result beyond this instrumentation — in particular no returned summary
of which rows failed. -/
structure InsertOutcome where
  posts : List PostRequest
  logs : List InsertLog
deriving DecidableEq

/-- Mirror of the per-row loop of `insert_rows`: the response to the POST at
position `idx` is `post idx`; a non-204 status logs a failure and the loop
continues, a 204 logs a success.  Nothing raises and no row is skipped. -/
def insert_rows_loop (requestURI : String) (insert_headers : Headers)
    (post : Nat → HttpResponse) : Nat → List Row → InsertOutcome
  | _, [] => ⟨[], []⟩
  | idx, row :: rest =>
    let r := post idx
    let log :=
      if r.status_code ≠ 204 then InsertLog.failure idx r.status_code r.content
      else InsertLog.success idx
    let o := insert_rows_loop requestURI insert_headers post (idx + 1) rest
    ⟨⟨requestURI, insert_headers, row⟩ :: o.posts, log :: o.logs⟩

/-- Mirror of `DataverseClient.insert_rows`: copy the session headers, add
`Content-Type`, build the fixed request URI with no query parameters, then
POST each row independently in order. -/
def insert_rows (session : Session) (environmentURI entity : String)
    (df : List Row) (post : Nat → HttpResponse) : InsertOutcome :=
  let insert_headers :=
    updateHeader session.headers "Content-Type" "application/json; charset=utf-8"
  let requestURI := environmentURI ++ "api/data/v9.2/" ++ entity
  insert_rows_loop requestURI insert_headers post 0 df

/-- Input handed to the interactive token acquisition of the msal library:
the client id, the assembled authority URL, and the scope list. -/
structure AuthInput where
  clientID : String
  authority : String
  scopes : List String
deriving DecidableEq

/-- Token-exchange result as the Python code reads it: the access token
entry when present, otherwise the error fields of the provider. -/
structure AuthResult where
  access_token : Option String
  error : Option String
  error_description : Option String
deriving DecidableEq

/-- Errors surfaced by client construction: a Python `KeyError` on a missing
config key (the ConfigurationError of the specification taxonomy) or the
explicit authentication-failed exception. -/
inductive ClientError where
  | configurationError (key : String)
  | authenticationError (error : Option String) (description : Option String)
deriving DecidableEq

/-- Parsed JSON configuration file: a key-value mapping. -/
abbrev Config := List (String × String)

/-- Mirror of a subscript access on the config dict: the value when the key
is present, a `KeyError` (modelled as `configurationError`) otherwise. -/
def configGet (config : Config) (key : String) : Except ClientError String :=
  match config.lookup key with
  | some v => Except.ok v
  | none => Except.error (ClientError.configurationError key)

/-- The five configuration keys the constructor reads, in access order. -/
def requiredConfigKeys : List String :=
  ["environmentURI", "scopeSuffix", "clientID", "authorityBase", "tenantID"]

/-- Mirror of `DataverseClient.get_authenticated_session`: read the five
config fields (each raising on absence, before any network activity), invoke
the interactive token acquisition, and on success build a fresh session and
install the `Authorization` header followed by the three fixed OData headers.
On a missing access token the method raises the authentication-failed
exception. -/
def get_authenticated_session (config : Config)
    (acquire_token_interactive : AuthInput → AuthResult) :
    Except ClientError (Session × String) := do
  let environmentURI ← configGet config "environmentURI"
  let scopeSuffix ← configGet config "scopeSuffix"
  let clientID ← configGet config "clientID"
  let authorityBase ← configGet config "authorityBase"
  let tenantID ← configGet config "tenantID"
  let scope := [environmentURI ++ "/" ++ scopeSuffix]
  let authority := authorityBase ++ tenantID
  let result := acquire_token_interactive ⟨clientID, authority, scope⟩
  match result.access_token with
  | some tok =>
    let hs0 := updateHeader [] "Authorization" ("Bearer " ++ tok)
    let hs1 := updateHeader hs0 "OData-MaxVersion" "4.0"
    let hs2 := updateHeader hs1 "OData-Version" "4.0"
    let hs3 := updateHeader hs2 "Accept" "application/json"
    Except.ok (⟨hs3⟩, environmentURI)
  | none =>
    Except.error (ClientError.authenticationError result.error result.error_description)

/-- Chain of successful pages reached from a pending next link: `link`
carries the URL of the first page of `ps`, each page of `ps` responds with
status 200, and the next link of each page leads to the next entry; the
final page of the chain (or `link` itself when `ps` is empty) carries no
next link. -/
def servesChainFrom (server : Server) : Option String → List (String × HttpResponse) → Prop
  | link, [] => link = none
  | link, q :: ps =>
    link = some q.1 ∧ server q.1 = q.2 ∧ q.2.status_code = 200 ∧
    servesChainFrom server q.2.nextLink ps

/-- Chain of successful pages from a pending link, ending in a failing
response: the pages of `ps` all answer 200 and chain by next links, and the
link left pending after them resolves to the response `b`. -/
def linkThenBad (server : Server) : Option String → List HttpResponse → HttpResponse → Prop
  | link, [], b => ∃ u, link = some u ∧ server u = b
  | link, p :: ps, b =>
    ∃ u, link = some u ∧ server u = p ∧ p.status_code = 200 ∧
    linkThenBad server p.nextLink ps b

/-- First page of the concrete two-page fixture: status 200, one row, next
link pointing at `u2`. -/
def page0W : HttpResponse := ⟨200, some [[("name", "a")]], some "u2", ""⟩

/-- Second page of the concrete two-page fixture: status 200, one row, no
next link. -/
def page1W : HttpResponse := ⟨200, some [[("name", "b")]], none, ""⟩

/-- Concrete server serving the two-page fixture: `u2` answers with the
second page, every other URL with the first. -/
def twoPageServer : Server := fun u => if u = "u2" then page1W else page0W

/-- Concrete session fixture carrying a bearer token header. -/
def sessW : Session := ⟨[("Authorization", "Bearer t")]⟩

/-- Concrete server answering every URL with a 200 response whose body has
no `value` key and no next link. -/
def noValueServer : Server := fun _ => ⟨200, none, none, "body"⟩

/-- Concrete server answering every URL with a 500 response. -/
def errorServer : Server := fun _ => ⟨500, none, none, "boom"⟩

/-- Concrete server answering every URL with a single 200 page and no next
link. -/
def terminatingServer : Server := fun _ => ⟨200, some [[("name", "a")]], none, ""⟩

/-- Concrete misbehaving server: every URL answers 200 with a next link back
to the URL `loop`, so pagination never ends. -/
def cyclicServer : Server := fun _ => ⟨200, some [[("name", "a")]], some "loop", ""⟩

/-- Concrete complete configuration fixture. -/
def configW : Config :=
  [("environmentURI", "https://env/"), ("scopeSuffix", ".default"), ("clientID", "cid"),
   ("authorityBase", "https://login/"), ("tenantID", "tid")]

/-- Concrete configuration fixture missing every key but the first. -/
def configMissingW : Config := [("environmentURI", "https://env/")]

/-- Concrete authenticator fixture that always returns a token. -/
def acquireW : AuthInput → AuthResult := fun _ => ⟨some "tok", none, none⟩

/-- Unfolding of `get_rows_loop` when the current body carries no next link:
the loop exits at once with the accumulated rows. -/
theorem get_rows_loop_none (server : Server) (session : Session) (fuel : Nat)
    (data : HttpResponse) (df : List Row) (trace : List HttpRequest)
    (h : data.nextLink = none) :
    get_rows_loop server session fuel data df trace =
      some ⟨trace, ReadResult.ok df, session⟩ := by
  rw [get_rows_loop.eq_def]
  simp only [h]

/-- Unfolding of `get_rows_loop` with a pending next link and no fuel left:
the bounded model reports the loop as still running. -/
theorem get_rows_loop_zero (server : Server) (session : Session)
    (data : HttpResponse) (df : List Row) (trace : List HttpRequest) (u : String)
    (h : data.nextLink = some u) :
    get_rows_loop server session 0 data df trace = none := by
  rw [get_rows_loop.eq_def]
  simp only [h]

/-- Unfolding of one iteration of `get_rows_loop`: the next-link URL is
fetched with the plain session headers, a non-200 response raises, and a 200
response appends its rows and continues. -/
theorem get_rows_loop_succ (server : Server) (session : Session) (fuel : Nat)
    (data : HttpResponse) (df : List Row) (trace : List HttpRequest) (u : String)
    (h : data.nextLink = some u) :
    get_rows_loop server session (fuel + 1) data df trace =
      if (server u).status_code ≠ 200 then
        some ⟨trace ++ [⟨u, session.headers⟩],
              ReadResult.error (server u).status_code (server u).content, session⟩
      else
        get_rows_loop server session fuel (server u) (df ++ (server u).value.getD [])
          (trace ++ [⟨u, session.headers⟩]) := by
  rw [get_rows_loop.eq_def]
  simp only [h]

/-- Behaviour of the pagination loop on a successful chain: with enough fuel
it fetches exactly the URLs of the chain, in order and with the session
headers, and appends the value rows of every page in page order. -/
theorem get_rows_loop_chain (server : Server) (session : Session) :
    ∀ (ps : List (String × HttpResponse)) (fuel : Nat) (data : HttpResponse)
      (df : List Row) (trace : List HttpRequest),
      servesChainFrom server data.nextLink ps → ps.length ≤ fuel →
      get_rows_loop server session fuel data df trace =
        some ⟨trace ++ ps.map (fun q => ⟨q.1, session.headers⟩),
              ReadResult.ok (df ++ (ps.map (fun q => q.2.value.getD [])).flatten), session⟩ := by
  intro ps
  induction ps with
  | nil =>
    intro fuel data df trace hchain hfuel
    simp only [servesChainFrom] at hchain
    simp [get_rows_loop_none server session fuel data df trace hchain]
  | cons q ps ih =>
    intro fuel data df trace hchain hfuel
    obtain ⟨hlink, hserv, hstat, hrest⟩ := hchain
    match fuel with
    | 0 => exact absurd hfuel (by simp)
    | fuel + 1 =>
      rw [get_rows_loop_succ server session fuel data df trace q.1 hlink, hserv,
        if_neg (by simp [hstat])]
      have hf2 : ps.length ≤ fuel := by
        simp only [List.length_cons] at hfuel
        omega
      have hih := ih fuel q.2 (df ++ q.2.value.getD [])
        (trace ++ [⟨q.1, session.headers⟩]) hrest hf2
      rw [hih]
      simp [List.append_assoc]

/-- Behaviour of the pagination loop on a chain ending in a failing fetch:
the loop issues exactly the fetches up to and including the failing one and
raises with the status and body of the failing response, returning no
rows. -/
theorem get_rows_loop_bad (server : Server) (session : Session) (b : HttpResponse)
    (hb : b.status_code ≠ 200) :
    ∀ (ps : List HttpResponse) (fuel : Nat) (data : HttpResponse) (df : List Row)
      (trace : List HttpRequest),
      linkThenBad server data.nextLink ps b → ps.length + 1 ≤ fuel →
      ∃ tr2, (get_rows_loop server session fuel data df trace =
          some ⟨trace ++ tr2, ReadResult.error b.status_code b.content, session⟩ ∧
        tr2.length = ps.length + 1) := by
  intro ps
  induction ps with
  | nil =>
    intro fuel data df trace hlb hfuel
    obtain ⟨u, hu, hserv⟩ := hlb
    match fuel with
    | 0 => exact absurd hfuel (by simp)
    | fuel + 1 =>
      refine ⟨[⟨u, session.headers⟩], ?_, by simp⟩
      rw [get_rows_loop_succ server session fuel data df trace u hu, hserv, if_pos hb]
  | cons p ps ih =>
    intro fuel data df trace hlb hfuel
    obtain ⟨u, hu, hserv, hstat, hrest⟩ := hlb
    match fuel with
    | 0 => exact absurd hfuel (by simp)
    | fuel + 1 =>
      rw [get_rows_loop_succ server session fuel data df trace u hu, hserv,
        if_neg (by simp [hstat])]
      have hf2 : ps.length + 1 ≤ fuel := by
        simp only [List.length_cons] at hfuel
        omega
      obtain ⟨tr2, heq, hlen⟩ :=
        ih fuel p (df ++ p.value.getD []) (trace ++ [⟨u, session.headers⟩]) hrest hf2
      refine ⟨⟨u, session.headers⟩ :: tr2, ?_, by simp [hlen]⟩
      rw [heq]
      simp

/-- Behaviour of the pagination loop on a server whose reachable pages all
answer 200 and always carry a next link (witnessed by an invariant `S` on
URLs): no amount of fuel makes the loop return. -/
theorem get_rows_loop_cyclic (server : Server) (session : Session) (S : String → Prop)
    (hS : ∀ u, S u → (server u).status_code = 200 ∧
      ∃ u2, (server u).nextLink = some u2 ∧ S u2) :
    ∀ (fuel : Nat) (data : HttpResponse) (df : List Row) (trace : List HttpRequest)
      (u : String), data.nextLink = some u → S u →
      get_rows_loop server session fuel data df trace = none := by
  intro fuel
  induction fuel with
  | zero =>
    intro data df trace u hu _
    exact get_rows_loop_zero server session data df trace u hu
  | succ fuel ih =>
    intro data df trace u hu hSu
    obtain ⟨hstat, u2, hu2, hSu2⟩ := hS u hSu
    rw [get_rows_loop_succ server session fuel data df trace u hu, if_neg (by simp [hstat])]
    exact ih (server u) (df ++ (server u).value.getD [])
      (trace ++ [⟨u, session.headers⟩]) u2 hu2 hSu2

/-- Frame property of the pagination loop: whatever outcome it returns, the
session it hands back is the one it was given — the loop never touches the
session header dict. -/
theorem get_rows_loop_frame (server : Server) (session : Session) :
    ∀ (fuel : Nat) (data : HttpResponse) (df : List Row) (trace : List HttpRequest)
      (o : GetOutcome), get_rows_loop server session fuel data df trace = some o →
      o.sessionAfter = session := by
  intro fuel
  induction fuel with
  | zero =>
    intro data df trace o h
    cases hnl : data.nextLink with
    | none =>
      rw [get_rows_loop_none server session 0 data df trace hnl] at h
      injection h with h
      subst h
      rfl
    | some u =>
      rw [get_rows_loop_zero server session data df trace u hnl] at h
      exact absurd h (by simp)
  | succ fuel ih =>
    intro data df trace o h
    cases hnl : data.nextLink with
    | none =>
      rw [get_rows_loop_none server session (fuel + 1) data df trace hnl] at h
      injection h with h
      subst h
      rfl
    | some u =>
      rw [get_rows_loop_succ server session fuel data df trace u hnl] at h
      by_cases hsc : (server u).status_code ≠ 200
      · rw [if_pos hsc] at h
        injection h with h
        subst h
        rfl
      · rw [if_neg hsc] at h
        exact ih (server u) (df ++ (server u).value.getD [])
          (trace ++ [⟨u, session.headers⟩]) o h

/-- Header property of the pagination loop: every request the loop itself
appends to the trace carries exactly the session headers. -/
theorem get_rows_loop_tail_headers (server : Server) (session : Session) :
    ∀ (fuel : Nat) (data : HttpResponse) (df : List Row) (trace : List HttpRequest)
      (o : GetOutcome), get_rows_loop server session fuel data df trace = some o →
      ∃ ts, o.trace = trace ++ ts ∧ ∀ r ∈ ts, r.headers = session.headers := by
  intro fuel
  induction fuel with
  | zero =>
    intro data df trace o h
    cases hnl : data.nextLink with
    | none =>
      rw [get_rows_loop_none server session 0 data df trace hnl] at h
      injection h with h
      subst h
      exact ⟨[], by simp, by simp⟩
    | some u =>
      rw [get_rows_loop_zero server session data df trace u hnl] at h
      exact absurd h (by simp)
  | succ fuel ih =>
    intro data df trace o h
    cases hnl : data.nextLink with
    | none =>
      rw [get_rows_loop_none server session (fuel + 1) data df trace hnl] at h
      injection h with h
      subst h
      exact ⟨[], by simp, by simp⟩
    | some u =>
      rw [get_rows_loop_succ server session fuel data df trace u hnl] at h
      by_cases hsc : (server u).status_code ≠ 200
      · rw [if_pos hsc] at h
        injection h with h
        subst h
        refine ⟨[⟨u, session.headers⟩], by simp, ?_⟩
        intro r hr
        simp at hr
        subst hr
        rfl
      · rw [if_neg hsc] at h
        obtain ⟨ts, hts, hall⟩ := ih (server u) (df ++ (server u).value.getD [])
          (trace ++ [⟨u, session.headers⟩]) o h
        refine ⟨⟨u, session.headers⟩ :: ts, ?_, ?_⟩
        · rw [hts]
          simp
        · intro r hr
          rcases List.mem_cons.mp hr with hr | hr
          · subst hr
            rfl
          · exact hall r hr

/-- Closed form of the insert loop at any starting index: one POST per row,
in order, each carrying the fixed URI and headers, and one log line per row
determined solely by the status of the response to that POST. -/
theorem insert_rows_loop_closed (requestURI : String) (insert_headers : Headers)
    (post : Nat → HttpResponse) :
    ∀ (df : List Row) (idx : Nat),
      insert_rows_loop requestURI insert_headers post idx df =
        ⟨df.map (fun row => ⟨requestURI, insert_headers, row⟩),
         (List.range df.length).map (fun i =>
           if (post (idx + i)).status_code ≠ 204 then
             InsertLog.failure (idx + i) (post (idx + i)).status_code (post (idx + i)).content
           else InsertLog.success (idx + i))⟩ := by
  intro df
  induction df with
  | nil => intro idx; rfl
  | cons row rest ih =>
    intro idx
    simp only [insert_rows_loop, ih (idx + 1), InsertOutcome.mk.injEq]
    constructor
    · simp
    · simp only [List.length_cons]
      rw [List.range_succ_eq_map]
      simp only [List.map_cons, List.map_map, Nat.add_zero]
      congr 1
      apply List.map_congr_left
      intro i _
      have h : idx + (i + 1) = idx + 1 + i := by omega
      simp [Nat.succ_eq_add_one, h]

/-- C1: for a multi-page read whose initial request is answered with a 200
page `p0` and whose pending next links form a successful chain `ps` of N
further pages (the next-link key is thus non-null N times and absent on the
final page), `get_rows` issues exactly N + 1 GET requests and returns the
concatenation of the value arrays of all pages, in page order with row order
preserved. -/
theorem get_rows_multipage (session : Session) (environmentURI entity : String)
    (top : Option Int) (columns : List String) (filter : Option String)
    (include_odata_annotations : Bool) (server : Server) (fuel : Nat)
    (p0 : HttpResponse) (ps : List (String × HttpResponse))
    (h0 : server (buildRequestURI environmentURI entity top columns filter) = p0)
    (h200 : p0.status_code = 200)
    (hchain : servesChainFrom server p0.nextLink ps)
    (hfuel : ps.length ≤ fuel) :
    get_rows session environmentURI entity top columns filter
        include_odata_annotations server fuel =
      some ⟨⟨buildRequestURI environmentURI entity top columns filter,
              request_headers session include_odata_annotations⟩ ::
              ps.map (fun q => ⟨q.1, session.headers⟩),
            ReadResult.ok (p0.value.getD [] ++
              (ps.map (fun q => q.2.value.getD [])).flatten),
            session⟩ ∧
    (⟨buildRequestURI environmentURI entity top columns filter,
        request_headers session include_odata_annotations⟩ ::
        ps.map (fun q => HttpRequest.mk q.1 session.headers)).length = ps.length + 1 := by
  constructor
  · simp only [get_rows]
    rw [h0, if_neg (by simp [h200])]
    have hloop := get_rows_loop_chain server session ps fuel p0 (p0.value.getD [])
      [⟨buildRequestURI environmentURI entity top columns filter,
        request_headers session include_odata_annotations⟩] hchain hfuel
    rw [hloop]
    simp
  · simp

/-- Witness for C1 at the concrete two-page fixture. -/
theorem get_rows_multipage_witness :
    get_rows sessW "https://env/" "accounts" none [] none false twoPageServer 1 =
      some ⟨⟨buildRequestURI "https://env/" "accounts" none [] none,
              request_headers sessW false⟩ ::
              ([("u2", page1W)].map (fun q => ⟨q.1, sessW.headers⟩)),
            ReadResult.ok (page0W.value.getD [] ++
              ([("u2", page1W)].map (fun q => q.2.value.getD [])).flatten),
            sessW⟩ ∧
    (⟨buildRequestURI "https://env/" "accounts" none [] none,
        request_headers sessW false⟩ ::
        ([("u2", page1W)].map (fun q => HttpRequest.mk q.1 sessW.headers))).length =
      [("u2", page1W)].length + 1 :=
  get_rows_multipage sessW "https://env/" "accounts" none [] none false twoPageServer 1
    page0W [("u2", page1W)] (by decide) rfl ⟨rfl, by decide, rfl, rfl⟩ (by decide)

/-- C2: for a single-page read (status 200 and no next-link key in the
body), `get_rows` issues exactly one GET request and returns exactly the
array under the `value` key in order; when the `value` key is absent the
result is the empty row sequence (`Option.getD` with default `[]`). -/
theorem get_rows_single_page (session : Session) (environmentURI entity : String)
    (top : Option Int) (columns : List String) (filter : Option String)
    (include_odata_annotations : Bool) (server : Server) (fuel : Nat)
    (p : HttpResponse)
    (h0 : server (buildRequestURI environmentURI entity top columns filter) = p)
    (h200 : p.status_code = 200)
    (hnl : p.nextLink = none) :
    get_rows session environmentURI entity top columns filter
        include_odata_annotations server fuel =
      some ⟨[⟨buildRequestURI environmentURI entity top columns filter,
              request_headers session include_odata_annotations⟩],
            ReadResult.ok (p.value.getD []), session⟩ := by
  simp only [get_rows]
  rw [h0, if_neg (by simp [h200])]
  exact get_rows_loop_none server session fuel p (p.value.getD []) _ hnl

/-- Witness for C2 at a concrete 200 response whose body lacks the `value`
key: one GET, empty row result. -/
theorem get_rows_single_page_witness :
    get_rows sessW "https://env/" "accounts" (some 5) ["name"] none false noValueServer 0 =
      some ⟨[⟨buildRequestURI "https://env/" "accounts" (some 5) ["name"] none,
              request_headers sessW false⟩],
            ReadResult.ok ((⟨200, none, none, "body"⟩ : HttpResponse).value.getD []),
            sessW⟩ :=
  get_rows_single_page sessW "https://env/" "accounts" (some 5) ["name"] none false
    noValueServer 0 ⟨200, none, none, "body"⟩ rfl rfl rfl

/-- C3: for a read in which the first GET, or any next-link GET after a
chain `ps` of successful pages, answers with a status other than 200,
`get_rows` raises an error carrying that status code and the raw body,
issues no HTTP call beyond the failing one (the trace length is the number
of successful pages plus one), and returns no partial rows. -/
theorem get_rows_error_aborts (session : Session) (environmentURI entity : String)
    (top : Option Int) (columns : List String) (filter : Option String)
    (include_odata_annotations : Bool) (server : Server) (fuel : Nat)
    (ps : List HttpResponse) (b : HttpResponse)
    (hserves : linkThenBad server
      (some (buildRequestURI environmentURI entity top columns filter)) ps b)
    (hb : b.status_code ≠ 200)
    (hfuel : ps.length ≤ fuel) :
    ∃ o, get_rows session environmentURI entity top columns filter
        include_odata_annotations server fuel = some o ∧
      o.result = ReadResult.error b.status_code b.content ∧
      o.trace.length = ps.length + 1 := by
  cases ps with
  | nil =>
    obtain ⟨u, hu, hserv⟩ := hserves
    injection hu with hu
    subst hu
    refine ⟨⟨[⟨buildRequestURI environmentURI entity top columns filter,
               request_headers session include_odata_annotations⟩],
             ReadResult.error b.status_code b.content, session⟩, ?_, rfl, by simp⟩
    simp only [get_rows]
    rw [hserv, if_pos hb]
  | cons p ps =>
    obtain ⟨u, hu, hserv, hstat, hrest⟩ := hserves
    injection hu with hu
    subst hu
    have hf2 : ps.length + 1 ≤ fuel := by
      simp only [List.length_cons] at hfuel
      omega
    obtain ⟨tr2, heq, hlen⟩ := get_rows_loop_bad server session b hb ps fuel p
      (p.value.getD [])
      [⟨buildRequestURI environmentURI entity top columns filter,
        request_headers session include_odata_annotations⟩] hrest hf2
    refine ⟨⟨[⟨buildRequestURI environmentURI entity top columns filter,
               request_headers session include_odata_annotations⟩] ++ tr2,
             ReadResult.error b.status_code b.content, session⟩, ?_, rfl, ?_⟩
    · simp only [get_rows]
      rw [hserv, if_neg (by simp [hstat])]
      exact heq
    · simp [hlen]

/-- Witness for C3 at a concrete server whose first response is a 500: the
read raises with status 500 and body after exactly one GET. -/
theorem get_rows_error_aborts_witness :
    ∃ o, get_rows sessW "https://env/" "accounts" none [] none false errorServer 3 = some o ∧
      o.result = ReadResult.error (500 : Nat) "boom" ∧
      o.trace.length = ([] : List HttpResponse).length + 1 :=
  get_rows_error_aborts sessW "https://env/" "accounts" none [] none false errorServer 3
    [] ⟨500, none, none, "boom"⟩
    ⟨buildRequestURI "https://env/" "accounts" none [] none, rfl, rfl⟩ (by decide) (by decide)

/-- C4: `insert_rows` issues one POST per row, in the given order, for all
rows of the input; the log line of each row is a failure entry (status and
body) exactly when the status of the response to its POST is not 204 and a
success entry otherwise, row failures never raise and never stop the loop,
and the number of failure log lines equals the number of non-204 responses.
The method returns nothing beyond these effects. -/
theorem insert_rows_per_row (session : Session) (environmentURI entity : String)
    (df : List Row) (post : Nat → HttpResponse) :
    insert_rows session environmentURI entity df post =
      ⟨df.map (fun row => ⟨environmentURI ++ "api/data/v9.2/" ++ entity,
          updateHeader session.headers "Content-Type" "application/json; charset=utf-8",
          row⟩),
       (List.range df.length).map (fun i =>
         if (post i).status_code ≠ 204 then
           InsertLog.failure i (post i).status_code (post i).content
         else InsertLog.success i)⟩ ∧
    (insert_rows session environmentURI entity df post).posts.length = df.length ∧
    (insert_rows session environmentURI entity df post).logs.countP InsertLog.isFailure =
      (List.range df.length).countP (fun i => (post i).status_code != 204) := by
  have hmain : insert_rows session environmentURI entity df post =
      ⟨df.map (fun row => ⟨environmentURI ++ "api/data/v9.2/" ++ entity,
          updateHeader session.headers "Content-Type" "application/json; charset=utf-8",
          row⟩),
       (List.range df.length).map (fun i =>
         if (post i).status_code ≠ 204 then
           InsertLog.failure i (post i).status_code (post i).content
         else InsertLog.success i)⟩ := by
    simp only [insert_rows, insert_rows_loop_closed, Nat.zero_add]
  refine ⟨hmain, ?_, ?_⟩
  · rw [hmain]
    simp
  · rw [hmain]
    simp only [List.countP_map]
    apply List.countP_congr
    intro i _
    by_cases h : (post i).status_code = 204 <;> simp [h, InsertLog.isFailure, Function.comp]

/-- C5 counterexample: calling with `top` supplied as `0` (and no other
parameter), the code produces the bare URI with no query string at all,
not the URI carrying the supplied `top` parameter that the claim
prescribes. -/
theorem buildRequestURI_top_zero_cex :
    buildRequestURI "https://env/" "accounts" (some 0) [] none =
      "https://env/api/data/v9.2/accounts" ∧
    "https://env/api/data/v9.2/accounts" ≠ "https://env/api/data/v9.2/accounts?$top=0" := by
  constructor
  · rfl
  · decide

/-- C5 (amended): the request URI is the base URI concatenated with the
fixed API segment and the entity name, followed — exactly when at least one
parameter is truthy (top present and non-zero, column list non-empty, filter
present and non-empty) — by `?` and the `&`-joined included parameters in
the fixed order top, select (columns comma-joined verbatim), filter (passed
through unmodified). -/
theorem buildRequestURI_eq_spec (environmentURI entity : String) (top : Option Int)
    (columns : List String) (filter : Option String) :
    buildRequestURI environmentURI entity top columns filter =
      requestURI_spec environmentURI entity top columns filter := by
  rcases top with _ | t <;> rcases filter with _ | f <;>
    simp only [buildRequestURI, requestURI_spec] <;>
    split_ifs <;>
    simp_all [List.isEmpty_iff]

/-- C6: for a configuration missing any of the five required keys, client
construction fails with the configuration error for a missing required key,
and it does so for every possible authenticator — the token exchange is
never consulted, so the failure precedes any network call. -/
theorem get_authenticated_session_missing_key (config : Config)
    (h : ∃ k ∈ requiredConfigKeys, config.lookup k = none) :
    ∃ k ∈ requiredConfigKeys, ∀ acquire_token_interactive,
      get_authenticated_session config acquire_token_interactive =
        Except.error (ClientError.configurationError k) := by
  cases h1 : config.lookup "environmentURI" with
  | none =>
    exact ⟨"environmentURI", by simp [requiredConfigKeys], fun acq => by
      simp [get_authenticated_session, configGet, h1, Except.instMonad, Except.bind]⟩
  | some v1 =>
  cases h2 : config.lookup "scopeSuffix" with
  | none =>
    exact ⟨"scopeSuffix", by simp [requiredConfigKeys], fun acq => by
      simp [get_authenticated_session, configGet, h1, h2, Except.instMonad, Except.bind]⟩
  | some v2 =>
  cases h3 : config.lookup "clientID" with
  | none =>
    exact ⟨"clientID", by simp [requiredConfigKeys], fun acq => by
      simp [get_authenticated_session, configGet, h1, h2, h3, Except.instMonad, Except.bind]⟩
  | some v3 =>
  cases h4 : config.lookup "authorityBase" with
  | none =>
    exact ⟨"authorityBase", by simp [requiredConfigKeys], fun acq => by
      simp [get_authenticated_session, configGet, h1, h2, h3, h4, Except.instMonad,
        Except.bind]⟩
  | some v4 =>
  cases h5 : config.lookup "tenantID" with
  | none =>
    exact ⟨"tenantID", by simp [requiredConfigKeys], fun acq => by
      simp [get_authenticated_session, configGet, h1, h2, h3, h4, h5, Except.instMonad,
        Except.bind]⟩
  | some v5 =>
    exfalso
    obtain ⟨k, hk, hnone⟩ := h
    simp only [requiredConfigKeys, List.mem_cons, List.mem_singleton] at hk
    rcases hk with rfl | rfl | rfl | rfl | rfl | hk
    · simp [h1] at hnone
    · simp [h2] at hnone
    · simp [h3] at hnone
    · simp [h4] at hnone
    · simp [h5] at hnone
    · simp at hk

/-- Witness for C6 at a concrete configuration holding only the first
required key. -/
theorem get_authenticated_session_missing_key_witness :
    ∃ k ∈ requiredConfigKeys, ∀ acquire_token_interactive,
      get_authenticated_session configMissingW acquire_token_interactive =
        Except.error (ClientError.configurationError k) :=
  get_authenticated_session_missing_key configMissingW
    ⟨"scopeSuffix", by decide, by decide⟩

/-- C7: for a complete configuration and a token exchange that returns an
access token, construction succeeds and the header set of the built session
is exactly the bearer authorization header followed by the three fixed
headers OData-MaxVersion 4.0, OData-Version 4.0 and Accept application/json
— nothing else (a fresh session is modelled with an empty header map, the
defaults of the external requests library being outside this repository). -/
theorem get_authenticated_session_success_headers (config : Config)
    (acquire_token_interactive : AuthInput → AuthResult)
    (e s c a t tok : String)
    (h1 : config.lookup "environmentURI" = some e)
    (h2 : config.lookup "scopeSuffix" = some s)
    (h3 : config.lookup "clientID" = some c)
    (h4 : config.lookup "authorityBase" = some a)
    (h5 : config.lookup "tenantID" = some t)
    (htok : (acquire_token_interactive ⟨c, a ++ t, [e ++ "/" ++ s]⟩).access_token = some tok) :
    get_authenticated_session config acquire_token_interactive =
      Except.ok (⟨[("Authorization", "Bearer " ++ tok), ("OData-MaxVersion", "4.0"),
                   ("OData-Version", "4.0"), ("Accept", "application/json")]⟩, e) := by
  simp [get_authenticated_session, configGet, h1, h2, h3, h4, h5, htok, Except.instMonad,
    Except.bind, updateHeader]

/-- Witness for C7 at the concrete complete configuration and an
authenticator that returns a token. -/
theorem get_authenticated_session_success_headers_witness :
    get_authenticated_session configW acquireW =
      Except.ok (⟨[("Authorization", "Bearer " ++ "tok"), ("OData-MaxVersion", "4.0"),
                   ("OData-Version", "4.0"), ("Accept", "application/json")]⟩, "https://env/") :=
  get_authenticated_session_success_headers configW acquireW
    "https://env/" ".default" "cid" "https://login/" "tid" "tok"
    (by decide) (by decide) (by decide) (by decide) (by decide) rfl

/-- C8 counterexample: a two-page annotated read in which the second GET —
the one against the next-link URI — does not carry the Prefer
annotations header: it is not the case that every GET of the read carries
it. -/
theorem get_rows_annotations_missing_cex :
    (get_rows sessW "https://env/" "accounts" none [] none true twoPageServer 1 =
      some ⟨[⟨"https://env/api/data/v9.2/accounts",
              [("Authorization", "Bearer t"), ("Prefer", "odata.include-annotations=*")]⟩,
             ⟨"u2", [("Authorization", "Bearer t")]⟩],
            ReadResult.ok [[("name", "a")], [("name", "b")]], sessW⟩) ∧
    ¬ (∀ r ∈ [HttpRequest.mk "https://env/api/data/v9.2/accounts"
                [("Authorization", "Bearer t"), ("Prefer", "odata.include-annotations=*")],
              HttpRequest.mk "u2" [("Authorization", "Bearer t")]],
        ("Prefer", "odata.include-annotations=*") ∈ r.headers) := by
  constructor
  · decide
  · decide

/-- C8 (amended): for a read with annotations requested, the Prefer
annotations header is sent on the initial GET only — every GET against a
next-link URI issued during pagination carries exactly the plain session
headers, to which the Prefer header is not added. -/
theorem get_rows_annotations_first_request_only (session : Session)
    (environmentURI entity : String) (top : Option Int) (columns : List String)
    (filter : Option String) (server : Server) (fuel : Nat) (o : GetOutcome)
    (h : get_rows session environmentURI entity top columns filter true server fuel = some o) :
    o.trace.head? = some ⟨buildRequestURI environmentURI entity top columns filter,
      updateHeader session.headers "Prefer" "odata.include-annotations=*"⟩ ∧
    ∀ r ∈ o.trace.tail, r.headers = session.headers := by
  simp only [get_rows, request_headers, if_pos] at h
  by_cases hsc : (server (buildRequestURI environmentURI entity top columns filter)).status_code ≠ 200
  · rw [if_pos hsc] at h
    injection h with h
    subst h
    exact ⟨rfl, by simp⟩
  · rw [if_neg hsc] at h
    obtain ⟨ts, hts, hall⟩ := get_rows_loop_tail_headers server session fuel _ _ _ o h
    constructor
    · rw [hts]
      rfl
    · intro r hr
      rw [hts] at hr
      exact hall r hr

/-- Witness for the amended C8 at the concrete two-page annotated read. -/
theorem get_rows_annotations_first_request_only_witness :
    (GetOutcome.mk
      [⟨"https://env/api/data/v9.2/accounts",
        [("Authorization", "Bearer t"), ("Prefer", "odata.include-annotations=*")]⟩,
       ⟨"u2", [("Authorization", "Bearer t")]⟩]
      (ReadResult.ok [[("name", "a")], [("name", "b")]]) sessW).trace.head? =
      some ⟨buildRequestURI "https://env/" "accounts" none [] none,
        updateHeader sessW.headers "Prefer" "odata.include-annotations=*"⟩ ∧
    ∀ r ∈ (GetOutcome.mk
      [⟨"https://env/api/data/v9.2/accounts",
        [("Authorization", "Bearer t"), ("Prefer", "odata.include-annotations=*")]⟩,
       ⟨"u2", [("Authorization", "Bearer t")]⟩]
      (ReadResult.ok [[("name", "a")], [("name", "b")]]) sessW).trace.tail,
      r.headers = sessW.headers :=
  get_rows_annotations_first_request_only sessW "https://env/" "accounts" none [] none
    twoPageServer 1
    (GetOutcome.mk
      [⟨"https://env/api/data/v9.2/accounts",
        [("Authorization", "Bearer t"), ("Prefer", "odata.include-annotations=*")]⟩,
       ⟨"u2", [("Authorization", "Bearer t")]⟩]
      (ReadResult.ok [[("name", "a")], [("name", "b")]]) sessW)
    (by decide)

/-- C9: the pagination loop terminates exactly when some page lacks a
non-null next link.  First conjunct: whenever the successful pages reached
from the initial response form a finite chain ending without a next link,
`get_rows` returns (with fuel at least the chain length).  Second conjunct:
for a server with an invariant set of URLs whose pages all answer 200 and
always carry a next link inside the set — for example a cyclic next link —
no amount of fuel makes `get_rows` return: the loop has no iteration cap
and never terminates. -/
theorem get_rows_pagination_termination (session : Session)
    (environmentURI entity : String) (top : Option Int) (columns : List String)
    (filter : Option String) (include_odata_annotations : Bool) (server : Server) :
    (∀ (p0 : HttpResponse) (ps : List (String × HttpResponse)),
      server (buildRequestURI environmentURI entity top columns filter) = p0 →
      p0.status_code = 200 → servesChainFrom server p0.nextLink ps →
      ∀ fuel, ps.length ≤ fuel →
        ∃ o, get_rows session environmentURI entity top columns filter
          include_odata_annotations server fuel = some o) ∧
    (∀ (S : String → Prop),
      (∀ u, S u → (server u).status_code = 200 ∧
        ∃ u2, (server u).nextLink = some u2 ∧ S u2) →
      ∀ (u : String),
        (server (buildRequestURI environmentURI entity top columns filter)).status_code = 200 →
        (server (buildRequestURI environmentURI entity top columns filter)).nextLink = some u →
        S u →
        ∀ fuel, get_rows session environmentURI entity top columns filter
          include_odata_annotations server fuel = none) := by
  constructor
  · intro p0 ps h0 h200 hchain fuel hfuel
    have hloop := get_rows_loop_chain server session ps fuel p0 (p0.value.getD [])
      [⟨buildRequestURI environmentURI entity top columns filter,
        request_headers session include_odata_annotations⟩] hchain hfuel
    exact ⟨_, by
      simp only [get_rows]
      rw [h0, if_neg (by simp [h200])]
      exact hloop⟩
  · intro S hS u h200 hlink hSu fuel
    simp only [get_rows]
    rw [if_neg (by simp [h200])]
    exact get_rows_loop_cyclic server session S hS fuel _ _ _ u hlink hSu

/-- Witness for C9: a terminating single-page server returns even with zero
fuel, and the concrete cyclic server returns for no fuel at all. -/
theorem get_rows_pagination_termination_witness :
    (∃ o, get_rows sessW "https://env/" "accounts" none [] none false terminatingServer 0 =
      some o) ∧
    (∀ fuel, get_rows sessW "https://env/" "accounts" none [] none false cyclicServer fuel =
      none) :=
  ⟨(get_rows_pagination_termination sessW "https://env/" "accounts" none [] none false
      terminatingServer).1 ⟨200, some [[("name", "a")]], none, ""⟩ [] rfl rfl rfl 0 (by decide),
   fun fuel => (get_rows_pagination_termination sessW "https://env/" "accounts" none [] none
      false cyclicServer).2 (fun u => u = "loop")
      (fun u _ => ⟨rfl, "loop", rfl, rfl⟩) "loop" rfl rfl rfl fuel⟩

/-- C10: `get_rows` never mutates the session — the annotations header is
added only to a per-call copy of the headers, so the session the call hands
back is, for every argument combination and every outcome, exactly the
session it was given. -/
theorem get_rows_preserves_session (session : Session) (environmentURI entity : String)
    (top : Option Int) (columns : List String) (filter : Option String)
    (include_odata_annotations : Bool) (server : Server) (fuel : Nat) (o : GetOutcome)
    (h : get_rows session environmentURI entity top columns filter
      include_odata_annotations server fuel = some o) :
    o.sessionAfter = session := by
  simp only [get_rows] at h
  by_cases hsc : (server (buildRequestURI environmentURI entity top columns filter)).status_code ≠ 200
  · rw [if_pos hsc] at h
    injection h with h
    subst h
    rfl
  · rw [if_neg hsc] at h
    exact get_rows_loop_frame server session fuel _ _ _ o h

/-- Witness for C10 at the concrete two-page annotated read. -/
theorem get_rows_preserves_session_witness :
    (GetOutcome.mk
      [⟨"https://env/api/data/v9.2/accounts",
        [("Authorization", "Bearer t"), ("Prefer", "odata.include-annotations=*")]⟩,
       ⟨"u2", [("Authorization", "Bearer t")]⟩]
      (ReadResult.ok [[("name", "a")], [("name", "b")]]) sessW).sessionAfter = sessW :=
  get_rows_preserves_session sessW "https://env/" "accounts" none [] none true twoPageServer 1
    (GetOutcome.mk
      [⟨"https://env/api/data/v9.2/accounts",
        [("Authorization", "Bearer t"), ("Prefer", "odata.include-annotations=*")]⟩,
       ⟨"u2", [("Authorization", "Bearer t")]⟩]
      (ReadResult.ok [[("name", "a")], [("name", "b")]]) sessW)
    (by decide)

end DataverseClient
